import Mathlib

/-!
Shallow embedding of the MenuExtraction staged extraction pipeline.

Source files embedded here:
- `src/main.py` : bounded_gather, run_phase2, run_phase4, MAX_CONCURRENCY;
- `src/utils/model.py` : pydantic schemas, all `model_config = ConfigDict(extra="forbid")`
  (strict mode);
- `src/backend/utils/model.py` : the same schemas with `extra="ignore"` (lenient mode)
  and `note` optional with default "No notes provided";
- `src/backend/main.py` : the FastAPI endpoints update_phase2_items, extract_addons,
  reextract_category_items, reextract_category_addons, check_required_files.

JSON values are modelled by the inductive `Json`; JSON numbers are modelled as
integers since the pipeline only type-checks numbers and never computes with them.
Pydantic validation is modelled by a schema-descriptor-driven validator
(`validate`) that mirrors pydantic field semantics: required versus optional
fields with defaults, `Optional[T]` accepting null, lists, nested models, and
the two extra-field policies `forbid` (strict := true) and `ignore`
(strict := false). Lax primitive coercions (for example int to float or string
to bool) are not modelled; no claim depends on them.
-/

/-- JSON values. Object fields are association lists; artifacts written by the
pipeline never repeat keys, and lookups take the first occurrence. -/
inductive Json where
  | null : Json
  | bool (b : Bool) : Json
  | num (n : Int) : Json
  | str (s : String) : Json
  | arr (elems : List Json) : Json
  | obj (fields : List (String × Json)) : Json
  deriving Repr

/-- Errors surfaced by the embedded code. `keyError`, `typeError` and
`indexError` model uncaught Python exceptions; `decodeError` models a
json.loads failure; `validationError` a pydantic rejection; the remaining
constructors model the HTTPException branches of `src/backend/main.py`. -/
inductive Err where
  | keyError (k : String) : Err
  | typeError : Err
  | indexError : Err
  | decodeError : Err
  | validationError : Err
  | pdfMissing : Err
  | requiredFileMissing (fname : String) : Err
  | notFound (detail : String) : Err
  | invalidPayload : Err
  deriving Repr, DecidableEq

/-- Python `container[key]` on a parsed-JSON dict: KeyError when the key is
absent, TypeError when the container is not a dict. -/
def jIndex (j : Json) (k : String) : Except Err Json :=
  match j with
  | .obj kvs =>
    match kvs.lookup k with
    | some v => .ok v
    | none => .error (.keyError k)
  | _ => .error .typeError

/-- Python `for x in container` over a parsed-JSON list; the code only ever
iterates values that are lists in well-formed artifacts, so any other shape is
modelled as a TypeError. -/
def jArr (j : Json) : Except Err (List Json) :=
  match j with
  | .arr xs => .ok xs
  | _ => .error .typeError

/-- Python list indexing with negative-index wrap-around:
`xs[i]` is `xs[len+i]` for `-len <= i < 0` and raises IndexError out of range. -/
def pyGet (xs : List α) (i : Int) : Option α :=
  if 0 ≤ i then xs[i.toNat]?
  else if (-i).toNat ≤ xs.length then xs[(xs.length - (-i).toNat)]? else none

/-- Pydantic-style schema descriptors. A model is a list of fields
`(name, default?, type)`; `default? = none` marks the field required, and
`default? = some d` makes it optional with dump value `d` when absent. -/
inductive Ty where
  | str : Ty
  | num : Ty
  | boolT : Ty
  | opt (t : Ty) : Ty
  | listOf (t : Ty) : Ty
  | model (fields : List (String × Option Json × Ty)) : Ty

/-- Pydantic `model_validate` followed by `model_dump`, driven by a schema
descriptor. `strict := true` mirrors `ConfigDict(extra="forbid")` (unknown
fields rejected); `strict := false` mirrors `extra="ignore"` (unknown fields
dropped from the dump). `fuel` bounds nesting depth; every schema in the
repository has depth below eight. -/
def validate (strict : Bool) : Nat → Ty → Json → Option Json
  | 0, _, _ => none
  | _ + 1, .str, .str s => some (.str s)
  | _ + 1, .num, .num n => some (.num n)
  | _ + 1, .boolT, .bool b => some (.bool b)
  | _ + 1, .opt _, .null => some .null
  | fuel + 1, .opt t, j => validate strict fuel t j
  | fuel + 1, .listOf t, .arr xs => (xs.mapM (validate strict fuel t)).map .arr
  | fuel + 1, .model fs, .obj kvs =>
    if strict && kvs.any (fun kv => fs.all (fun f => f.1 != kv.1)) then none
    else
      (fs.mapM (fun (f : String × Option Json × Ty) =>
        match kvs.lookup f.1 with
        | some v => (validate strict fuel f.2.2 v).map (fun v' => (f.1, v'))
        | none =>
          match f.2.1 with
          | some d => some (f.1, d)
          | none => none)).map .obj
  | _ + 1, _, _ => none

/-- Depth budget that covers every schema in the repository. -/
def schemaFuel : Nat := 32

/-- Full validation entry point at the fixed depth budget. -/
def validateTop (strict : Bool) (t : Ty) (j : Json) : Option Json :=
  validate strict schemaFuel t j

namespace Models

/-- `Money` from the model files: required float `amount`, optional `currency`. -/
def Money : Ty :=
  .model [("amount", none, .num), ("currency", some .null, .opt .str)]

/-- `PriceByVariation`: required `variation_name`, optional `price`. -/
def PriceByVariation : Ty :=
  .model [("variation_name", none, .str), ("price", some .null, .opt Money)]

/-- `SubcategoryRef`: required `name_raw`. -/
def SubcategoryRef : Ty :=
  .model [("name_raw", none, .str)]

/-- `CategoryRef`: required `name_raw`, `subcategories` defaulting to `[]`. -/
def CategoryRef : Ty :=
  .model [("name_raw", none, .str),
          ("subcategories", some (.arr []), .listOf SubcategoryRef)]

/-- `Categories`, the Stage-1 output schema: `categories` defaulting to `[]`. -/
def Categories : Ty :=
  .model [("categories", some (.arr []), .listOf CategoryRef)]

/-- `Variation`: required `name_raw`, optional `price` and `size`. -/
def Variation : Ty :=
  .model [("name_raw", none, .str),
          ("price", some .null, .opt Money),
          ("size", some .null, .opt .str)]

/-- `Item`: required `name_raw`; `variations` defaults to `[]`. -/
def Item : Ty :=
  .model [("name_raw", none, .str),
          ("description_raw", some .null, .opt .str),
          ("variations", some (.arr []), .listOf Variation),
          ("base_price", some .null, .opt Money),
          ("size", some .null, .opt .str)]

/-- `CategoryItems`: `items` defaults to `[]`, optional `description_raw`. -/
def CategoryItems : Ty :=
  .model [("items", some (.arr []), .listOf Item),
          ("description_raw", some .null, .opt .str)]

/-- `SubcategoryItems`: required `name_raw`, `items` defaults to `[]`. -/
def SubcategoryItems : Ty :=
  .model [("name_raw", none, .str),
          ("items", some (.arr []), .listOf Item),
          ("description_raw", some .null, .opt .str)]

/-- `CategorywithItems` as declared in `src/utils/model.py`: `note` is a
required string there. -/
def CategorywithItems : Ty :=
  .model [("name_raw", none, .str),
          ("category_items", some (.arr []), .listOf CategoryItems),
          ("subcategory_items", some (.arr []), .listOf SubcategoryItems),
          ("note", none, .str)]

/-- `CategorywithItems` as declared in `src/backend/utils/model.py`: `note`
is optional with default "No notes provided". -/
def CategorywithItemsBackend : Ty :=
  .model [("name_raw", none, .str),
          ("category_items", some (.arr []), .listOf CategoryItems),
          ("subcategory_items", some (.arr []), .listOf SubcategoryItems),
          ("note", some (.str "No notes provided"), .opt .str)]

/-- `BaseOption`: `default` is a bool defaulting to false,
`price_by_variation` is `Optional[List[...]] = None`. -/
def BaseOption : Ty :=
  .model [("name_raw", none, .str),
          ("price", some .null, .opt Money),
          ("default", some (.bool false), .boolT),
          ("price_by_variation", some .null, .opt (.listOf PriceByVariation))]

/-- `CategoryBase`, the Stage-3 output schema. -/
def CategoryBase : Ty :=
  .model [("name_raw", none, .str),
          ("base_options", some (.arr []), .opt (.listOf BaseOption)),
          ("subcategories_base", some (.arr []), .opt (.listOf BaseOption))]

/-- `AddonOption`: like `BaseOption` but `price_by_variation` defaults to `[]`. -/
def AddonOption : Ty :=
  .model [("name_raw", none, .str),
          ("default", some (.bool false), .boolT),
          ("price", some .null, .opt Money),
          ("price_by_variation", some (.arr []), .opt (.listOf PriceByVariation))]

/-- `ItemsAddons`: required `name_raw`, `addons` defaults to `[]`. -/
def ItemsAddons : Ty :=
  .model [("name_raw", none, .str),
          ("addons", some (.arr []), .listOf AddonOption)]

/-- `SubcategoryAddons`. -/
def SubcategoryAddons : Ty :=
  .model [("name_raw", none, .str),
          ("items_addons", some (.arr []), .opt (.listOf ItemsAddons))]

/-- `CategoryItemAddons`, the Stage-4 output schema. -/
def CategoryItemAddons : Ty :=
  .model [("name_raw", none, .str),
          ("subcategory_items", some (.arr []), .opt (.listOf SubcategoryAddons)),
          ("items_addons", some (.arr []), .opt (.listOf ItemsAddons))]

end Models

example :
    validateTop true Models.Categories
      (.obj [("categories", .arr [.obj [("name_raw", .str "Entrees")]])]) =
    some (.obj [("categories",
      .arr [.obj [("name_raw", .str "Entrees"), ("subcategories", .arr [])]])]) := by
  rfl

example :
    validateTop true Models.Categories (.obj [("categories", .arr []), ("zzz", .null)]) =
      none := by
  rfl

example :
    validateTop false Models.Categories (.obj [("categories", .arr []), ("zzz", .null)]) =
      some (.obj [("categories", .arr [])]) := by
  rfl

/-!
## Bounded fan-out executor: `bounded_gather` from `src/main.py`

```python
async def bounded_gather(coros, limit):
    sem = asyncio.Semaphore(limit)
    async def _run(coro):
        async with sem:
            return await coro
    return await asyncio.gather(*(_run(c) for c in coros))
```

The cooperative event loop is modelled as a state machine over task indices.
Each task is identified by its submission index into `outs`, the list of the
eventual outcomes of the submitted coroutines (`Except ε α`: an exception or a
value). Free semaphore slots are handed to queued tasks in submission order
(`fill`, matching the FIFO waiter queue of `asyncio.Semaphore` and the fact
that `gather` starts the wrappers in argument order). The order in which
in-flight tasks finish is adversarial: a `schedule` lists which running task
completes at each step. Completing a task removes it from the running set and
records its outcome — the slot is released whether the outcome is a value or
an exception, mirroring `async with sem`. After the whole schedule has run,
`bounded_gather` reports: the first exception in completion order if any task
raised (as `asyncio.gather` re-raises it, discarding sibling results), or the
list of results in submission order.
-/

/-- Event-loop state: indices of tasks still queued on the semaphore (in
submission order), indices in flight, and completed tasks with outcomes in
completion order. -/
structure ExecState (ε α : Type) where
  pending : List Nat
  running : List Nat
  finished : List (Nat × Except ε α)
  deriving Repr

/-- Hand free semaphore slots to queued tasks, in submission order, until the
limit is reached or the queue empties. -/
def fill (limit : Nat) (s : ExecState ε α) : ExecState ε α :=
  let k := limit - s.running.length
  ⟨s.pending.drop k, s.running ++ s.pending.take k, s.finished⟩

/-- One completion event: task `i` finishes with outcome `outs[i]`, leaving the
running set and releasing its semaphore slot regardless of whether the outcome
is a value or an exception. Schedule entries that do not name an in-flight
task are ignored. -/
def stepComplete (outs : List (Except ε α)) (s : ExecState ε α) (i : Nat) :
    ExecState ε α :=
  if s.running.contains i then
    match outs[i]? with
    | some o => ⟨s.pending, s.running.erase i, s.finished ++ [(i, o)]⟩
    | none => s
  else s

/-- One scheduler round: a completion event followed by refilling the freed
slot from the queue. -/
def stepSched (outs : List (Except ε α)) (limit : Nat) (s : ExecState ε α)
    (i : Nat) : ExecState ε α :=
  fill limit (stepComplete outs s i)

/-- Initial state: every task queued, nothing in flight. -/
def initState (n : Nat) : ExecState ε α := ⟨List.range n, [], []⟩

/-- Every event-loop state reached while executing `schedule`. -/
def execStates (outs : List (Except ε α)) (limit : Nat) (sched : List Nat) :
    List (ExecState ε α) :=
  sched.scanl (stepSched outs limit) (fill limit (initState outs.length))

/-- The state after the whole schedule has run. -/
def finalState (outs : List (Except ε α)) (limit : Nat) (sched : List Nat) :
    ExecState ε α :=
  sched.foldl (stepSched outs limit) (fill limit (initState outs.length))

/-- Whether an outcome is an exception. -/
def exIsErr : Except ε α → Bool
  | .error _ => true
  | .ok _ => false

/-- The recorded result of task `i`, when it completed with a value. -/
def resultOf (fin : List (Nat × Except ε α)) (i : Nat) : Option α :=
  match fin.find? (fun p => p.1 == i) with
  | some (_, .ok a) => some a
  | _ => none

/-- Observable behaviour of `await bounded_gather(coros, limit)` under a given
completion schedule: `none` when the schedule does not complete the batch
(the await never returns), `some (.error e)` when some task raised (`gather`
re-raises the first exception in completion order; siblings finish but their
results are discarded), and `some (.ok rs)` with the results in submission
order when every task succeeded. -/
def bounded_gather (outs : List (Except ε α)) (limit : Nat)
    (sched : List Nat) : Option (Except ε (List α)) :=
  if (finalState outs limit sched).pending.isEmpty &&
      (finalState outs limit sched).running.isEmpty then
    match (finalState outs limit sched).finished.find? (fun p => exIsErr p.2) with
    | some (_, .error e) => some (.error e)
    | some (_, .ok _) => none
    | none =>
      match (List.range outs.length).mapM
          (resultOf (finalState outs limit sched).finished) with
      | some rs => some (.ok rs)
      | none => none
  else none

example :
    bounded_gather (ε := String) [.ok 10, .ok 20, .ok 30] 2 [1, 0, 2] =
      some (.ok [10, 20, 30]) := by
  rfl

example :
    bounded_gather (ε := String) [.ok 10, .error "boom", .ok 30] 2 [1, 2, 0] =
      some (.error "boom") := by
  rfl

/-- The model of `MAX_CONCURRENCY = int(os.getenv("MAX_CONCURRENCY", "4"))`:
`os.getenv` with default "4", composed with the Python `int` builtin, which
is abstracted as `parseInt` (`none` modelling the ValueError of `int`). -/
def MAX_CONCURRENCY (parseInt : String → Option Int) (env : Option String) :
    Option Int :=
  parseInt (env.getD "4")

/-!
## Stage runners from `src/main.py`

An inference call is identified by the data rendered into its prompt:
the restaurant name, the page number, and the single category object
(`phase2_prompt`) or the category/category-base wrapper pair
(`phase4_prompt`). The inference service is an oracle from calls to the
parsed-JSON body of the response, `none` standing for a body that
`json.loads` rejects. Responses come back from `bounded_gather` in
submission order (proved above), so the post-gather decode-and-validate
loop is composed directly over the batch in order.
-/

/-- The prompt-determining inputs of one inference call. `categoryBase` is
`none` for Stage-2 calls and carries the `{"category_base": ...}` wrapper for
Stage-4 calls. -/
structure Call where
  restaurant : String
  pageNumber : Int
  category : Json
  categoryBase : Option Json
  deriving Repr

/-- Python `page["page_number"] - 1` preparation: the value must be an int. -/
def expectInt : Json → Except Err Int
  | .num n => .ok n
  | _ => .error .typeError

/-- Selects which `CategorywithItems` schema is in scope: the strict CLI file
`src/utils/model.py` or the lenient backend file `src/backend/utils/model.py`. -/
def cwiTy (strict : Bool) : Ty :=
  if strict then Models.CategorywithItems else Models.CategorywithItemsBackend

/-- The sequential decode-and-validate loop run over a batch of responses
after `bounded_gather` returns: `json.loads` (decode error when the oracle
yields no JSON) then `model_validate` against the stage schema, stopping at
the first failure. -/
def validateResponses (strict : Bool) (t : Ty) (oracle : Call → Option Json) :
    List Call → Except Err (List Json)
  | [] => .ok []
  | c :: cs =>
    match oracle c with
    | none => .error .decodeError
    | some j =>
      match validateTop strict t j with
      | none => .error .validationError
      | some v => (validateResponses strict t oracle cs).map (fun vs => v :: vs)

/-- Outcome of one stage runner: the per-page batches of inference calls
actually submitted (in submission order), the returned value or exception,
and what was written to the stage's output file. -/
structure PhaseOutcome where
  batches : List (List Call)
  output : Except Err Json
  persisted : Option Json
  deriving Repr

/-- The per-page preamble of `run_phase2`: read `page["page_number"]`, index
into the rasterized images, validate `page["data"]` against `Categories`, and
build one call per top-level category of the page — `for cat in
page_categories.categories` — none for subcategories. -/
def pageBatchPhase2 (strict : Bool) (restaurant : String) (numImages : Nat)
    (page : Json) : Except Err (Int × List Call) := do
  let pn ← jIndex page "page_number" >>= expectInt
  if (pyGet (List.range numImages) (pn - 1)).isNone then throw Err.indexError
  let dataJ ← jIndex page "data"
  let some valid := validateTop strict Models.Categories dataJ
    | throw Err.validationError
  let cats ← jIndex valid "categories" >>= jArr
  pure (pn, cats.map (fun c => ⟨restaurant, pn, c, none⟩))

/-- The strictly sequential page loop of `run_phase2`: a page's batch is
submitted, resolved and validated before the next page is touched, and the
first failure aborts the loop, so no later page's batch is ever submitted. -/
def runPhase2Pages (strict : Bool) (restaurant : String) (numImages : Nat)
    (oracle : Call → Option Json) :
    List Json → List (List Call) × Except Err (List Json)
  | [] => ([], .ok [])
  | p :: ps =>
    match pageBatchPhase2 strict restaurant numImages p with
    | .error e => ([], .error e)
    | .ok (pn, batch) =>
      match validateResponses strict (cwiTy strict) oracle batch with
      | .error e => ([batch], .error e)
      | .ok results =>
        let (bs, rest) := runPhase2Pages strict restaurant numImages oracle ps
        (batch :: bs, rest.map (fun pagesOut =>
          Json.obj [("page_number", .num pn), ("categories", .arr results)]
            :: pagesOut))

/-- `run_phase2` from `src/main.py` (the CLI uses the strict schema file).
The items file is written only after every page has fully succeeded. -/
def run_phase2 (restaurant : String) (numImages : Nat)
    (oracle : Call → Option Json) (payload : Json) : PhaseOutcome :=
  match jIndex payload "pages" >>= jArr with
  | .error e => ⟨[], .error e, none⟩
  | .ok pages =>
    match runPhase2Pages true restaurant numImages oracle pages with
    | (bs, .error e) => ⟨bs, .error e, none⟩
    | (bs, .ok pagesOut) =>
      let out := Json.obj [("restaurant_name", .str restaurant),
                           ("pages", .arr pagesOut)]
      ⟨bs, .ok out, some out⟩

/-- The inner loop of `run_phase4`'s page body:
`for cat, cat_base in zip(page_categories, page_bases)` — each pair is
validated and becomes exactly one call carrying both wrapped objects. -/
def buildCalls4 (strict : Bool) (restaurant : String) (pn : Int)
    (cats bases : List Json) : Except Err (List Call) :=
  (cats.zip bases).mapM (fun (cb : Json × Json) => do
    let some vc := validateTop strict (cwiTy strict) cb.1
      | throw Err.validationError
    let some vb := validateTop strict Models.CategoryBase cb.2
      | throw Err.validationError
    pure (⟨restaurant, pn, Json.obj [("category", vc)],
           some (Json.obj [("category_base", vb)])⟩ : Call))

/-- The per-page preamble of `run_phase4` for one `(page, page_base)` pair of
the zipped page lists. -/
def pageBatchPhase4 (strict : Bool) (restaurant : String) (numImages : Nat)
    (page pageBase : Json) : Except Err (Int × List Call) := do
  let pn ← jIndex page "page_number" >>= expectInt
  if (pyGet (List.range numImages) (pn - 1)).isNone then throw Err.indexError
  let cats ← jIndex page "categories" >>= jArr
  let bases ← jIndex pageBase "categories" >>= jArr
  let calls ← buildCalls4 strict restaurant pn cats bases
  pure (pn, calls)

/-- The sequential page loop of `run_phase4` over
`zip(pages, pages_base)`. -/
def runPhase4Pages (strict : Bool) (restaurant : String) (numImages : Nat)
    (oracle : Call → Option Json) :
    List (Json × Json) → List (List Call) × Except Err (List Json)
  | [] => ([], .ok [])
  | pp :: pps =>
    match pageBatchPhase4 strict restaurant numImages pp.1 pp.2 with
    | .error e => ([], .error e)
    | .ok (pn, batch) =>
      match validateResponses strict Models.CategoryItemAddons oracle batch with
      | .error e => ([batch], .error e)
      | .ok results =>
        let (bs, rest) := runPhase4Pages strict restaurant numImages oracle pps
        (batch :: bs, rest.map (fun pagesOut =>
          Json.obj [("page_number", .num pn), ("categories", .arr results)]
            :: pagesOut))

/-- `run_phase4` from `src/main.py`: `for page, page_base in zip(pages,
pages_base)`. The CLI deployment imports the strict schema file; the `strict`
flag keeps the same code usable for the lenient backend deployment. -/
def run_phase4 (strict : Bool) (restaurant : String) (numImages : Nat)
    (oracle : Call → Option Json) (payload basePayload : Json) : PhaseOutcome :=
  match jIndex payload "pages" >>= jArr with
  | .error e => ⟨[], .error e, none⟩
  | .ok pages =>
    match jIndex basePayload "pages" >>= jArr with
    | .error e => ⟨[], .error e, none⟩
    | .ok pagesBase =>
      match runPhase4Pages strict restaurant numImages oracle
          (pages.zip pagesBase) with
      | (bs, .error e) => ⟨bs, .error e, none⟩
      | (bs, .ok pagesOut) =>
        let out := Json.obj [("restaurant_name", .str restaurant),
                             ("pages", .arr pagesOut)]
        ⟨bs, .ok out, some out⟩

/-!
## Backend API from `src/backend/main.py`

The persisted artifacts live in the `outputs/` directory; the slice of the
filesystem the endpoints touch is modelled by `Store`. The uploaded PDF is
represented by its page count (`none` = file absent). Each endpoint is a
function from request data and store to a response (`Except Err ...`) and the
store after the request, so frame effects are explicit.
-/

/-- The `outputs/` files read and written by the modelled endpoints. -/
structure Store where
  pdfPages : Option Nat
  reviewedCategories : Option Json
  phase2Items : Option Json
  phase3Bases : Option Json
  phase4Addons : Option Json
  deriving Repr

/-- One file check of `check_required_files` for a non-PDF path. -/
def checkFile (f : Option α) (fname : String) : Except Err Unit :=
  if f.isSome then .ok () else .error (.requiredFileMissing fname)

/-- The `check_required_files` branch for `UPLOADED_PDF_PATH`. -/
def checkPdf (st : Store) : Except Err Unit :=
  if st.pdfPages.isSome then .ok () else .error .pdfMissing

/-- The value must be a JSON string (artifact `restaurant_name` fields). -/
def expectStr : Json → Except Err String
  | .str s => .ok s
  | _ => .error .typeError

/-- FastAPI body parsing for `Phase3ItemsPayload`: an object with a string
`restaurant_name` and a list `pages` of dicts; anything else is rejected
before the handler runs. -/
def parseEnvelope (payload : Json) : Except Err (String × List Json) :=
  match payload with
  | .obj kvs =>
    match kvs.lookup "restaurant_name", kvs.lookup "pages" with
    | some (.str rn), some (.arr pages) =>
      if pages.all (fun p => match p with | .obj _ => true | _ => false)
      then .ok (rn, pages) else .error .validationError
    | _, _ => .error .validationError
  | _ => .error .validationError

/-- The per-page body of `update_phase2_items`: reject with a 400 when the
page has no `categories` key, then validate every category against the
lenient backend `CategorywithItems` schema. -/
def checkPage2 (page : Json) : Except Err Unit :=
  match page with
  | .obj kvs =>
    match kvs.lookup "categories" with
    | none => .error .invalidPayload
    | some catsJ =>
      match jArr catsJ with
      | .error e => .error e
      | .ok cats =>
        if (cats.mapM (validateTop false Models.CategorywithItemsBackend)).isSome
        then .ok () else .error .validationError
  | _ => .error .typeError

/-- `update_phase2_items` (PUT /api/phase2/update-items): validate the edited
Stage-2 payload and overwrite `category_items_all_pages.json`. No other file
is touched — in particular the Stage-3 and Stage-4 artifacts are left as they
are. -/
def update_phase2_items (payload : Json) (st : Store) :
    Except Err String × Store :=
  match parseEnvelope payload with
  | .error e => (.error e, st)
  | .ok (rn, pages) =>
    match pages.forM checkPage2 with
    | .error e => (.error e, st)
    | .ok _ =>
      let dumped := Json.obj [("restaurant_name", .str rn), ("pages", .arr pages)]
      (.ok "Items updated successfully", { st with phase2Items := some dumped })

/-- `extract_addons` (POST /api/phase4/extract-addons): check that the
Stage-2 items file, the Stage-3 bases file and the PDF exist (in that order),
then run Stage 4 on whatever those files currently hold. The backend
`extractor.py` is not under `src/`; following the spec, which describes one
stage runner shared by both deployment surfaces, its `run_phase4` is modelled
by the `run_phase4` of `src/main.py` above, instantiated with the lenient
backend schemas, and it writes the Stage-4 artifact on success. -/
def extract_addons (oracle : Call → Option Json) (st : Store) :
    Except Err Json × Store :=
  match (do
      checkFile st.phase2Items "category_items_all_pages.json"
      checkFile st.phase3Bases "category_bases_all_pages.json"
      checkPdf st : Except Err Unit) with
  | .error e => (.error e, st)
  | .ok _ =>
    let items := st.phase2Items.getD .null
    let bases := st.phase3Bases.getD .null
    let n := st.pdfPages.getD 0
    match jIndex items "restaurant_name" >>= expectStr with
    | .error e => (.error e, st)
    | .ok rn =>
      let res := run_phase4 false rn n oracle items bases
      match res.output with
      | .error e => (.error e, st)
      | .ok out => (.ok out, { st with phase4Addons := res.persisted })

/-- The page-location loop shared by the re-extraction endpoints:
`for page in data["pages"]: if page["page_number"] == page_number: ... break`.
A page dict without a `page_number` key raises a KeyError. -/
def findPageByNumber : List Json → Int → Except Err (Option Json)
  | [], _ => .ok none
  | p :: ps, n => do
    let v ← jIndex p "page_number"
    if (match v with | .num m => m == n | _ => false)
    then pure (some p) else findPageByNumber ps n

/-- The category-location loop of the re-extraction endpoints:
`for cat in cats: if cat["name"] == category_name: ... break`. Note the key
is the literal string "name": a category dict without a `name` key — which is
every schema-valid category, since the schemas declare `name_raw` — raises a
KeyError. -/
def findCatByNameKey : List Json → String → Except Err (Option Json)
  | [], _ => .ok none
  | c :: cs, nm => do
    let v ← jIndex c "name"
    if (match v with | .str s => s == nm | _ => false)
    then pure (some c) else findCatByNameKey cs nm

/-- `reextract_category_items` (PATCH /api/phase2/reextract-category):
locate the page by number in the reviewed Stage-1 artifact, locate the
category inside it via `cat["name"]`, re-run the single Stage-2 call for it,
validate the response, and return it without writing anything. -/
def reextract_category_items (oracle : Call → Option Json)
    (categoryName : String) (pageNumber : Int) (st : Store) :
    Except Err Json × Store :=
  (go, st)
where
  go : Except Err Json := do
    checkFile st.reviewedCategories "reviewed_categories.json"
    checkPdf st
    let reviewed := st.reviewedCategories.getD .null
    let pages ← jIndex reviewed "pages" >>= jArr
    let some targetPage ← findPageByNumber pages pageNumber
      | throw (Err.notFound "Page not found")
    let dataJ ← jIndex targetPage "data"
    let cats ← jIndex dataJ "categories" >>= jArr
    let some targetCategory ← findCatByNameKey cats categoryName
      | throw (Err.notFound "Category not found on page")
    let n := st.pdfPages.getD 0
    if (pyGet (List.range n) (pageNumber - 1)).isNone then throw Err.indexError
    let rn ← jIndex reviewed "restaurant_name" >>= expectStr
    let some respJ := oracle ⟨rn, pageNumber, targetCategory, none⟩
      | throw Err.decodeError
    let some valid := validateTop false Models.CategorywithItemsBackend respJ
      | throw Err.validationError
    pure (Json.obj [("success", .bool true),
                    ("message", .str "Re-extracted items for category"),
                    ("category_items", valid)])

/-- The nested page-and-category scan of `reextract_category_addons`: the
outer page loop has no break, so a later page with the same number can
overwrite an earlier match; the inner loop again reads `cat["name"]`. -/
def scanPagesForCat (pages : List Json) (pageNumber : Int) (nm : String) :
    Except Err (Option Json) :=
  pages.foldlM (fun acc p => do
    let v ← jIndex p "page_number"
    if (match v with | .num m => m == pageNumber | _ => false) then do
      let cats ← jIndex p "categories" >>= jArr
      match (← findCatByNameKey cats nm) with
      | some c => pure (some c)
      | none => pure acc
    else pure acc) none

/-- `reextract_category_addons` (PATCH /api/phase4/reextract-category-addons):
locate the category in the Stage-2 items artifact and in the Stage-3 bases
artifact (both via `cat["name"]`), issue the single Stage-4 call with both
wrappers, validate, and return without writing anything. -/
def reextract_category_addons (oracle : Call → Option Json)
    (categoryName : String) (pageNumber : Int) (st : Store) :
    Except Err Json × Store :=
  (go, st)
where
  go : Except Err Json := do
    checkFile st.phase2Items "category_items_all_pages.json"
    checkFile st.phase3Bases "category_bases_all_pages.json"
    checkPdf st
    let items := st.phase2Items.getD .null
    let bases := st.phase3Bases.getD .null
    let itemPages ← jIndex items "pages" >>= jArr
    let ti ← scanPagesForCat itemPages pageNumber categoryName
    let basePages ← jIndex bases "pages" >>= jArr
    let tb ← scanPagesForCat basePages pageNumber categoryName
    match ti, tb with
    | some tic, some tbc => do
      let n := st.pdfPages.getD 0
      if (pyGet (List.range n) (pageNumber - 1)).isNone then throw Err.indexError
      let rn ← jIndex items "restaurant_name" >>= expectStr
      let some respJ := oracle
          ⟨rn, pageNumber, Json.obj [("category", tic)],
           some (Json.obj [("category_base", tbc)])⟩
        | throw Err.decodeError
      let some valid := validateTop false Models.CategoryItemAddons respJ
        | throw Err.validationError
      pure (Json.obj [("success", .bool true),
                      ("message", .str "Re-extracted addons for category"),
                      ("category_addons", valid)])
    | _, _ => throw (Err.notFound "Category not found on page")

/-!
## Executor proofs

The multiset of task indices split across the three compartments of an
`ExecState` is preserved by every scheduler step, and every recorded outcome
is the submitted task's outcome. These two facts drive the order-preservation
and fail-fast theorems.
-/

/-- Scheduler invariant: the queued, in-flight and finished indices together
are exactly the submitted indices, and each finished entry records the
outcome of the task it names. -/
def TasksInv (outs : List (Except ε α)) (s : ExecState ε α) : Prop :=
  ((s.finished.map Prod.fst : Multiset Nat) + ↑s.running + ↑s.pending =
    Multiset.range outs.length)
  ∧ ∀ p ∈ s.finished, outs[p.1]? = some p.2

theorem tasksInv_init (outs : List (Except ε α)) :
    TasksInv outs (initState outs.length) := by
  constructor
  · simp [initState, Multiset.range]
  · intro p hp
    simp [initState] at hp

theorem tasksInv_fill (outs : List (Except ε α)) (limit : Nat)
    (s : ExecState ε α) (h : TasksInv outs s) :
    TasksInv outs (fill limit s) := by
  obtain ⟨hms, hfin⟩ := h
  refine ⟨?_, hfin⟩
  have hp : s.pending =
      s.pending.take (limit - s.running.length) ++
      s.pending.drop (limit - s.running.length) :=
    (List.take_append_drop _ _).symm
  rw [hp] at hms
  simp only [fill]
  rw [← hms]
  simp only [Multiset.coe_add, Multiset.coe_eq_coe]
  simp only [List.append_assoc]
  exact List.Perm.refl _

theorem tasksInv_stepComplete (outs : List (Except ε α))
    (s : ExecState ε α) (i : Nat) (h : TasksInv outs s) :
    TasksInv outs (stepComplete outs s i) := by
  obtain ⟨hms, hfin⟩ := h
  unfold stepComplete
  split
  case isTrue hc =>
    split
    case h_1 o ho =>
      have hmem : i ∈ s.running := by
        simpa using hc
      constructor
      · have hr : (↑s.running : Multiset Nat) = ↑(i :: s.running.erase i) :=
          Multiset.coe_eq_coe.mpr (List.perm_cons_erase hmem)
        rw [hr] at hms
        rw [← hms]
        simp only [List.map_append, List.map_cons, List.map_nil]
        simp only [Multiset.coe_add, Multiset.coe_eq_coe]
        simp only [List.append_assoc, List.singleton_append, List.cons_append,
          List.nil_append]
        exact List.Perm.refl _
      · intro p hp
        rcases List.mem_append.mp hp with hmem2 | hmem2
        · exact hfin p hmem2
        · have hpe : p = (i, o) := by simpa using hmem2
          subst hpe
          exact ho
    case h_2 => exact ⟨hms, hfin⟩
  case isFalse => exact ⟨hms, hfin⟩

theorem tasksInv_stepSched (outs : List (Except ε α)) (limit : Nat)
    (s : ExecState ε α) (i : Nat) (h : TasksInv outs s) :
    TasksInv outs (stepSched outs limit s i) :=
  tasksInv_fill outs limit _ (tasksInv_stepComplete outs s i h)

theorem foldl_preserves {f : β → γ → β} {P : β → Prop}
    (hstep : ∀ b a, P b → P (f b a)) :
    ∀ (l : List γ) (b : β), P b → P (l.foldl f b) := by
  intro l
  induction l with
  | nil => intro b hb; simpa using hb
  | cons a l ih => intro b hb; exact ih _ (hstep b a hb)

theorem tasksInv_finalState (outs : List (Except ε α)) (limit : Nat)
    (sched : List Nat) : TasksInv outs (finalState outs limit sched) :=
  foldl_preserves (fun s i h => tasksInv_stepSched outs limit s i h) sched _
    (tasksInv_fill outs limit _ (tasksInv_init outs))

theorem finished_covers (outs : List (Except ε α)) (limit : Nat)
    (sched : List Nat)
    (hpend : (finalState outs limit sched).pending = [])
    (hrun : (finalState outs limit sched).running = []) :
    ∀ i, i < outs.length →
      i ∈ (finalState outs limit sched).finished.map Prod.fst := by
  obtain ⟨hms, _⟩ := tasksInv_finalState outs limit sched
  rw [hpend, hrun] at hms
  simp only [Multiset.coe_nil, add_zero] at hms
  intro i hi
  have hr : i ∈ Multiset.range outs.length := Multiset.mem_range.mpr hi
  rw [← hms] at hr
  simpa using hr

theorem outs_of_resultOf {outs : List (Except ε α)}
    {fin : List (Nat × Except ε α)} {i : Nat} {a : α}
    (hfin : ∀ p ∈ fin, outs[p.1]? = some p.2)
    (h : resultOf fin i = some a) : outs[i]? = some (Except.ok a) := by
  unfold resultOf at h
  cases hq : fin.find? (fun q => q.1 == i) with
  | none => rw [hq] at h; simp at h
  | some q =>
    rw [hq] at h
    obtain ⟨q1, q2⟩ := q
    cases q2 with
    | ok b =>
      simp at h
      have hqi : q1 = i := Nat.eq_of_beq_eq_true (by simpa using List.find?_some hq)
      have hmem := List.mem_of_find?_eq_some hq
      have hv := hfin (q1, .ok b) hmem
      simpa [hqi, h] using hv
    | error e => simp at h

theorem mapM_option_some {γ β : Type _} {f : γ → Option β} :
    ∀ {l : List γ} {rs : List β}, l.mapM f = some rs →
      List.Forall₂ (fun a b => f a = some b) l rs := by
  intro l
  induction l with
  | nil =>
    intro rs h
    rw [← List.mapM'_eq_mapM] at h
    simp only [List.mapM'] at h
    simp at h
    rw [h]
    exact List.Forall₂.nil
  | cons a l ih =>
    intro rs h
    rw [← List.mapM'_eq_mapM] at h
    simp only [List.mapM'] at h
    cases hf : f a with
    | none => rw [hf] at h; simp at h
    | some b =>
      rw [hf] at h
      cases hm : List.mapM' f l with
      | none => rw [hm] at h; simp at h
      | some bs =>
        rw [hm] at h
        simp at h
        rw [← h]
        exact List.Forall₂.cons hf (ih (by rw [← List.mapM'_eq_mapM]; exact hm))

theorem bounded_gather_ok (outs : List (Except ε α)) (limit : Nat)
    (sched : List Nat) (rs : List α)
    (h : bounded_gather outs limit sched = some (.ok rs)) :
    outs = rs.map Except.ok := by
  unfold bounded_gather at h
  split at h
  case isFalse => simp at h
  case isTrue hc =>
    obtain ⟨hpe, hre⟩ := Bool.and_eq_true_iff.mp hc
    have hpend : (finalState outs limit sched).pending = [] :=
      List.isEmpty_iff.mp hpe
    have hrun : (finalState outs limit sched).running = [] :=
      List.isEmpty_iff.mp hre
    split at h
    case h_1 => simp at h
    case h_2 => simp at h
    case h_3 hfind =>
      split at h
      case h_2 => simp at h
      case h_1 rs' hmapm =>
        simp only [Option.some.injEq, Except.ok.injEq] at h
        subst h
        have hfa := mapM_option_some hmapm
        rw [List.forall₂_iff_get] at hfa
        obtain ⟨hlen, hget⟩ := hfa
        simp only [List.length_range] at hlen
        have hfin := (tasksInv_finalState outs limit sched).2
        apply List.ext_getElem?
        intro k
        by_cases hk : k < outs.length
        · have hk2 : k < rs'.length := by omega
          have hres := hget k (by simpa using hk) hk2
          rw [List.get_eq_getElem, List.getElem_range] at hres
          have hout := outs_of_resultOf hfin hres
          rw [hout, List.getElem?_map]
          rw [List.getElem?_eq_getElem hk2]
          simp
        · rw [List.getElem?_eq_none (by omega),
            List.getElem?_eq_none (by simp; omega)]

theorem bounded_gather_err (outs : List (Except ε α)) (limit : Nat)
    (sched : List Nat) (r : Except ε (List α))
    (h : bounded_gather outs limit sched = some r)
    (o : Except ε α) (ho : o ∈ outs) (herr : exIsErr o = true) :
    ∃ e, r = .error e := by
  unfold bounded_gather at h
  split at h
  case isFalse => simp at h
  case isTrue hc =>
    obtain ⟨hpe, hre⟩ := Bool.and_eq_true_iff.mp hc
    have hpend : (finalState outs limit sched).pending = [] :=
      List.isEmpty_iff.mp hpe
    have hrun : (finalState outs limit sched).running = [] :=
      List.isEmpty_iff.mp hre
    split at h
    case h_1 p e heq =>
      refine ⟨e, ?_⟩
      simp only [Option.some.injEq] at h
      exact h.symm
    case h_2 => simp at h
    case h_3 hfind =>
      exfalso
      obtain ⟨i, hi⟩ := List.mem_iff_getElem?.mp ho
      have hlt : i < outs.length := by
        obtain ⟨hl, -⟩ := List.getElem?_eq_some.mp hi
        exact hl
      have hcov := finished_covers outs limit sched hpend hrun i hlt
      obtain ⟨p, hpmem, hpi⟩ := List.mem_map.mp hcov
      have hv := (tasksInv_finalState outs limit sched).2 p hpmem
      rw [hpi, hi] at hv
      have hperr : exIsErr p.2 = true := by
        simp only [Option.some.injEq] at hv
        rw [← hv]
        exact herr
      have := List.find?_eq_none.mp hfind p hpmem
      simp [hperr] at this

theorem scanl_preserves {f : β → γ → β} {P : β → Prop}
    (hstep : ∀ b a, P b → P (f b a)) :
    ∀ (l : List γ) (b : β), P b → ∀ x ∈ List.scanl f b l, P x := by
  intro l
  induction l with
  | nil =>
    intro b hb x hx
    simp only [List.scanl_nil, List.mem_singleton] at hx
    rw [hx]
    exact hb
  | cons a l ih =>
    intro b hb x hx
    rw [List.scanl_cons] at hx
    rcases List.mem_cons.mp hx with hx | hx
    · rw [hx]; exact hb
    · exact ih (f b a) (hstep b a hb) x hx

theorem fill_running_le (limit : Nat) (s : ExecState ε α)
    (h : s.running.length ≤ limit) :
    (fill limit s).running.length ≤ limit := by
  simp only [fill, List.length_append, List.length_take]
  omega

theorem stepComplete_running_le (outs : List (Except ε α))
    (s : ExecState ε α) (i : Nat) :
    (stepComplete outs s i).running.length ≤ s.running.length := by
  unfold stepComplete
  split
  · split
    · exact (List.erase_sublist i s.running).length_le
    · exact Nat.le_refl _
  · exact Nat.le_refl _

/-- The concurrency ceiling holds in every state the event loop reaches. -/
theorem execStates_running_le (outs : List (Except ε α)) (limit : Nat)
    (sched : List Nat) :
    ∀ s ∈ execStates outs limit sched, s.running.length ≤ limit := by
  intro s hs
  refine scanl_preserves (f := stepSched outs limit)
    (P := fun t => t.running.length ≤ limit) ?_ sched _ ?_ s hs
  · intro t i ht
    exact fill_running_le limit _
      (Nat.le_trans (stepComplete_running_le outs t i) ht)
  · exact fill_running_le limit _ (by simp [initState])

/-- Completing an in-flight task always releases its slot — the running set
shrinks by exactly one — whether its outcome is a value or an exception. -/
theorem stepComplete_releases (outs : List (Except ε α))
    (s : ExecState ε α) (i : Nat) (hmem : i ∈ s.running)
    (hlt : i < outs.length) :
    (stepComplete outs s i).running = s.running.erase i := by
  unfold stepComplete
  rw [if_pos (by simpa using hmem)]
  cases ho : outs[i]? with
  | none =>
    exfalso
    rw [List.getElem?_eq_none_iff] at ho
    omega
  | some o => rfl

theorem mapM_except_some {γ β : Type _} {f : γ → Except Err β} :
    ∀ {l : List γ} {rs : List β}, l.mapM f = .ok rs →
      List.Forall₂ (fun a b => f a = .ok b) l rs := by
  intro l
  induction l with
  | nil =>
    intro rs h
    rw [← List.mapM'_eq_mapM] at h
    simp only [List.mapM'] at h
    simp [pure, Except.pure] at h
    rw [h]
    exact List.Forall₂.nil
  | cons a l ih =>
    intro rs h
    rw [← List.mapM'_eq_mapM] at h
    simp only [List.mapM'] at h
    cases hf : f a with
    | error e => rw [hf] at h; simp [Bind.bind, Except.bind] at h
    | ok b =>
      rw [hf] at h
      cases hm : List.mapM' f l with
      | error e =>
        rw [hm] at h
        simp [Bind.bind, Except.bind, pure, Except.pure] at h
      | ok bs =>
        rw [hm] at h
        simp [Bind.bind, Except.bind, pure, Except.pure] at h
        rw [← h]
        exact List.Forall₂.cons hf (ih (by rw [← List.mapM'_eq_mapM]; exact hm))

theorem mapM_option_congr {γ β : Type _} {f g : γ → Option β} :
    ∀ {l : List γ}, (∀ a ∈ l, f a = g a) → l.mapM f = l.mapM g := by
  intro l
  induction l with
  | nil => intro _; rfl
  | cons a l ih =>
    intro h
    rw [← List.mapM'_eq_mapM, ← List.mapM'_eq_mapM]
    simp only [List.mapM']
    rw [h a (List.mem_cons_self a l)]
    rw [← List.mapM'_eq_mapM, ← List.mapM'_eq_mapM] at ih
    rw [ih (fun x hx => h x (List.mem_cons_of_mem a hx))]

theorem lookup_append_single {kvs : List (String × Json)} {k f1 : String}
    {x : Json} (h : f1 ≠ k) :
    (kvs ++ [(k, x)]).lookup f1 = kvs.lookup f1 := by
  induction kvs with
  | nil => simp [List.lookup, beq_eq_false_iff_ne.mpr h]
  | cons kv kvs ih =>
    obtain ⟨k', v'⟩ := kv
    simp only [List.cons_append, List.lookup]
    split
    · rfl
    · exact ih

theorem except_bind_ok {γ β : Type _} {x : Except Err γ} {f : γ → Except Err β}
    {b : β} (h : (x >>= f) = .ok b) : ∃ a, x = .ok a ∧ f a = .ok b := by
  cases x with
  | error e => simp [Bind.bind, Except.bind] at h
  | ok a => exact ⟨a, rfl, by simpa [Bind.bind, Except.bind] using h⟩

theorem zip_append_right {γ β : Type _} :
    ∀ (l₁ : List γ) (l₂ extra : List β), l₁.length ≤ l₂.length →
      l₁.zip (l₂ ++ extra) = l₁.zip l₂ := by
  intro l₁
  induction l₁ with
  | nil => intro l₂ extra _; simp
  | cons a l ih =>
    intro l₂ extra hlen
    cases l₂ with
    | nil => simp at hlen
    | cons b l₂ =>
      simp only [List.cons_append, List.zip_cons_cons, List.cons.injEq]
      exact ⟨trivial, ih l₂ extra (by simpa using hlen)⟩

/-!
## Claim theorems
-/

/-- C2. Order preservation: whenever `bounded_gather` returns a result list
(every task succeeded and the schedule completed the batch), the list has one
entry per submitted task and its i-th element is the value of the i-th
submitted task — equivalently the submitted outcomes are exactly the returned
values in submission order — for every concurrency limit and every completion
order. -/
theorem C2_bounded_gather_order_preservation {ε α : Type}
    (outs : List (Except ε α)) (limit : Nat) (sched : List Nat)
    (rs : List α) (h : bounded_gather outs limit sched = some (.ok rs)) :
    rs.length = outs.length ∧ outs = rs.map Except.ok := by
  have hmain := bounded_gather_ok outs limit sched rs h
  refine ⟨?_, hmain⟩
  rw [hmain, List.length_map]

/-- Witness for C2 at a concrete batch of three tasks, limit 2, with tasks
finishing out of submission order (task 1 first). -/
theorem C2_witness :
    ([10, 20, 30] : List Nat).length =
      ([.ok 10, .ok 20, .ok 30] : List (Except String Nat)).length ∧
    ([.ok 10, .ok 20, .ok 30] : List (Except String Nat)) =
      ([10, 20, 30] : List Nat).map Except.ok :=
  C2_bounded_gather_order_preservation
    [.ok 10, .ok 20, .ok 30] 2 [1, 0, 2] [10, 20, 30] (by rfl)

/-- C3. Concurrency ceiling: in every state the event loop passes through,
at most `limit` tasks are in flight, for every batch, limit and completion
order; the limit defaults to 4 when the `MAX_CONCURRENCY` environment
variable is unset and follows the variable when it parses as an integer; and
a completion event always releases the finishing task's slot — the running
set shrinks to `running.erase i` — regardless of whether the task's outcome
is a value or an exception. -/
theorem C3_concurrency_ceiling {ε α : Type} :
    (∀ (outs : List (Except ε α)) (limit : Nat) (sched : List Nat),
       ∀ s ∈ execStates outs limit sched, s.running.length ≤ limit)
    ∧ (∀ parseInt, parseInt "4" = some 4 →
        MAX_CONCURRENCY parseInt none = some 4)
    ∧ (∀ parseInt v, MAX_CONCURRENCY parseInt (some v) = parseInt v)
    ∧ (∀ (outs : List (Except ε α)) (s : ExecState ε α) (i : Nat),
        i ∈ s.running → i < outs.length →
        (stepComplete outs s i).running = s.running.erase i) := by
  refine ⟨?_, ?_, ?_, ?_⟩
  · intro outs limit sched s hs
    exact execStates_running_le outs limit sched s hs
  · intro parseInt hp
    simpa [MAX_CONCURRENCY] using hp
  · intro parseInt v
    rfl
  · intro outs s i hmem hlt
    exact stepComplete_releases outs s i hmem hlt

/-- Witness for C3: a concrete mid-run state of a three-task batch at limit 2
respects the ceiling; an unset environment gives limit 4 and a set one is
honored; completing task 1 out of `[0, 1]` releases exactly its slot even
though its outcome is an exception. -/
theorem C3_witness :
    (⟨[], [0, 2], [(1, .ok 20)]⟩ : ExecState String Nat).running.length ≤ 2 ∧
    MAX_CONCURRENCY (fun _ => some 4) none = some 4 ∧
    MAX_CONCURRENCY (fun _ => some 8) (some "8") = some 8 ∧
    (stepComplete [.ok 10, .error "boom", .ok 30]
      (⟨[2], [0, 1], []⟩ : ExecState String Nat) 1).running = [0, 1].erase 1 := by
  obtain ⟨h1, h2, h3, h4⟩ := @C3_concurrency_ceiling String Nat
  refine ⟨?_, h2 (fun _ => some 4) rfl, h3 (fun _ => some 8) "8", ?_⟩
  · refine h1 [.ok 10, .ok 20, .ok 30] 2 [1, 0, 2] _ ?_
    have hlist : execStates ([.ok 10, .ok 20, .ok 30] : List (Except String Nat))
        2 [1, 0, 2] =
        [⟨[2], [0, 1], []⟩, ⟨[], [0, 2], [(1, .ok 20)]⟩,
         ⟨[], [2], [(1, .ok 20), (0, .ok 10)]⟩,
         ⟨[], [], [(1, .ok 20), (0, .ok 10), (2, .ok 30)]⟩] := rfl
    rw [hlist]
    exact List.mem_cons_of_mem _ (List.mem_cons_self _ _)
  · refine h4 [.ok 10, .error "boom", .ok 30] _ 1 ?_ (by decide)
    exact List.mem_cons_of_mem _ (List.mem_cons_self _ _)

theorem validateResponses_err {strict : Bool} {t : Ty}
    {oracle : Call → Option Json} :
    ∀ {calls : List Call} {c : Call}, c ∈ calls →
      (oracle c = none ∨ ∃ j, oracle c = some j ∧ validateTop strict t j = none) →
      ∃ e, validateResponses strict t oracle calls = .error e := by
  intro calls
  induction calls with
  | nil => intro c hc; simp at hc
  | cons d cs ih =>
    intro c hc hfail
    rcases List.mem_cons.mp hc with heq | hc2
    · subst heq
      rcases hfail with hnone | ⟨j, hj, hv⟩
      · exact ⟨.decodeError, by simp [validateResponses, hnone]⟩
      · exact ⟨.validationError, by simp [validateResponses, hj, hv]⟩
    · cases hd : oracle d with
      | none => exact ⟨.decodeError, by simp [validateResponses, hd]⟩
      | some j =>
        cases hv : validateTop strict t j with
        | none => exact ⟨.validationError, by simp [validateResponses, hd, hv]⟩
        | some v =>
          obtain ⟨e, he⟩ := ih hc2 hfail
          exact ⟨e, by simp [validateResponses, hd, hv, he, Except.map]⟩

theorem run_phase2_persist_char (restaurant : String) (numImages : Nat)
    (oracle : Call → Option Json) (payload : Json) :
    (run_phase2 restaurant numImages oracle payload).persisted =
      match (run_phase2 restaurant numImages oracle payload).output with
      | .ok out => some out
      | .error _ => none := by
  unfold run_phase2
  split
  · rfl
  · split
    · rfl
    · rfl

/-- C1. Fail-fast, all-or-nothing batches: (a) if any task of a batch handed
to `bounded_gather` raises, the value the caller gets back is a single
exception, never a list (sibling results are discarded); (b) if any response
in a page batch fails JSON decoding or schema validation, the page loop's
result is a single exception; (c) `run_phase2` writes its output file exactly
when the whole run succeeded — on any failure nothing is persisted, so no
partial list of unit results is returned or stored. -/
theorem C1_fail_fast_all_or_nothing {ε α : Type} :
    (∀ (outs : List (Except ε α)) (limit : Nat) (sched : List Nat)
       (r : Except ε (List α)) (o : Except ε α),
       bounded_gather outs limit sched = some r → o ∈ outs →
       exIsErr o = true → ∃ e, r = .error e)
    ∧ (∀ (strict : Bool) (t : Ty) (oracle : Call → Option Json)
        (calls : List Call) (c : Call), c ∈ calls →
        (oracle c = none ∨
          ∃ j, oracle c = some j ∧ validateTop strict t j = none) →
        ∃ e, validateResponses strict t oracle calls = .error e)
    ∧ (∀ (restaurant : String) (numImages : Nat)
        (oracle : Call → Option Json) (payload : Json) (e : Err),
        (run_phase2 restaurant numImages oracle payload).output = .error e →
        (run_phase2 restaurant numImages oracle payload).persisted = none) := by
  refine ⟨?_, ?_, ?_⟩
  · intro outs limit sched r o h ho herr
    exact bounded_gather_err outs limit sched r h o ho herr
  · intro strict t oracle calls c hc hfail
    exact validateResponses_err hc hfail
  · intro restaurant numImages oracle payload e he
    rw [run_phase2_persist_char, he]

/-- Inference stub for the C1 witness: every response is the JSON object
`{}`, which fails `CategorywithItems` validation (missing `name_raw`, `note`). -/
def c1oracle : Call → Option Json := fun _ => some (.obj [])

/-- One concrete Stage-2 call for the C1 witness. -/
def c1call : Call := ⟨"R", 1, .obj [], none⟩

/-- A one-page, one-category Stage-1 payload for the C1 witness. -/
def c1payload : Json :=
  .obj [("pages", .arr [.obj [("page_number", .num 1),
    ("data", .obj [("categories", .arr [.obj [("name_raw", .str "A")]])])]])]

/-- Witness for C1: a two-task batch with one raising task yields a single
exception; a batch whose response fails validation yields a single exception;
a `run_phase2` run whose only unit fails validation persists nothing. -/
theorem C1_witness :
    (∃ e, (Except.error "boom" : Except String (List Nat)) = .error e) ∧
    (∃ e, validateResponses true Models.CategorywithItems c1oracle [c1call] =
      .error e) ∧
    (run_phase2 "R" 1 c1oracle c1payload).persisted = none := by
  obtain ⟨h1, h2, h3⟩ := @C1_fail_fast_all_or_nothing String Nat
  refine ⟨?_, ?_, ?_⟩
  · exact h1 [.ok 10, .error "boom"] 2 [0, 1] (.error "boom") (.error "boom")
      rfl (by simp) rfl
  · exact h2 true Models.CategorywithItems c1oracle [c1call] c1call
      (List.mem_cons_self _ _) (Or.inr ⟨.obj [], rfl, rfl⟩)
  · exact h3 "R" 1 c1oracle c1payload .validationError rfl

/-- C6. Stage-2 call pattern: the batch built for a page consists of exactly
one call per top-level category of that page's validated Stage-1 data, in
order, each carrying that single category object, and no call for any
subcategory (the batch length is the top-level category count regardless of
subcategories); a failed page batch stops the loop with that single batch, so
a later page's batch is never submitted before the previous page's batch has
fully resolved; and after a page succeeds the loop recurses into the
remaining pages. -/
theorem C6_stage2_call_pattern :
    (∀ (strict : Bool) (r : String) (n : Nat) (pn : Int)
       (page dataJ valid : Json) (cats : List Json),
       jIndex page "page_number" = .ok (.num pn) →
       (pyGet (List.range n) (pn - 1)).isSome = true →
       jIndex page "data" = .ok dataJ →
       validateTop strict Models.Categories dataJ = some valid →
       jIndex valid "categories" = .ok (.arr cats) →
       pageBatchPhase2 strict r n page =
         .ok (pn, cats.map (fun c => ⟨r, pn, c, none⟩)))
    ∧ (∀ (strict : Bool) (r : String) (n : Nat) (oracle : Call → Option Json)
        (p : Json) (ps : List Json) (pn : Int) (batch : List Call) (e : Err),
        pageBatchPhase2 strict r n p = .ok (pn, batch) →
        validateResponses strict (cwiTy strict) oracle batch = .error e →
        runPhase2Pages strict r n oracle (p :: ps) = ([batch], .error e))
    ∧ (∀ (strict : Bool) (r : String) (n : Nat) (oracle : Call → Option Json)
        (p : Json) (ps : List Json) (pn : Int) (batch : List Call)
        (results : List Json),
        pageBatchPhase2 strict r n p = .ok (pn, batch) →
        validateResponses strict (cwiTy strict) oracle batch = .ok results →
        runPhase2Pages strict r n oracle (p :: ps) =
          (batch :: (runPhase2Pages strict r n oracle ps).1,
           ((runPhase2Pages strict r n oracle ps).2).map
             (fun pagesOut =>
               Json.obj [("page_number", .num pn), ("categories", .arr results)]
                 :: pagesOut))) := by
  refine ⟨?_, ?_, ?_⟩
  · intro strict r n pn page dataJ valid cats h1 h2 h3 h4 h5
    obtain ⟨img, himg⟩ := Option.isSome_iff_exists.mp h2
    simp [pageBatchPhase2, h1, h3, h4, h5, himg, expectInt, jArr,
      Bind.bind, Except.bind, pure, Except.pure]
  · intro strict r n oracle p ps pn batch e h1 h2
    simp [runPhase2Pages, h1, h2]
  · intro strict r n oracle p ps pn batch results h1 h2
    cases hrec : runPhase2Pages strict r n oracle ps with
    | mk bs rest => simp [runPhase2Pages, h1, h2, hrec]

/-- The C6 witness page: two top-level categories, the first with one
subcategory. -/
def c6page : Json :=
  .obj [("page_number", .num 1),
        ("data", .obj [("categories", .arr
          [.obj [("name_raw", .str "Appetizers"),
                 ("subcategories", .arr [.obj [("name_raw", .str "Cold")]])],
           .obj [("name_raw", .str "Entrees")]])])]

/-- Validated dump of the first C6 category. -/
def c6catA : Json :=
  .obj [("name_raw", .str "Appetizers"),
        ("subcategories", .arr [.obj [("name_raw", .str "Cold")]])]

/-- Validated dump of the second C6 category. -/
def c6catB : Json :=
  .obj [("name_raw", .str "Entrees"), ("subcategories", .arr [])]

/-- Witness for C6 at a concrete page: exactly two calls, one per top-level
category and none for the subcategory. -/
theorem C6_witness :
    pageBatchPhase2 true "R" 1 c6page =
      .ok (1, [⟨"R", 1, c6catA, none⟩, ⟨"R", 1, c6catB, none⟩]) :=
  C6_stage2_call_pattern.1 true "R" 1 1 c6page
    (.obj [("categories", .arr
      [.obj [("name_raw", .str "Appetizers"),
             ("subcategories", .arr [.obj [("name_raw", .str "Cold")]])],
       .obj [("name_raw", .str "Entrees")]])])
    (.obj [("categories", .arr [c6catA, c6catB])])
    [c6catA, c6catB] rfl rfl rfl rfl rfl

theorem runPhase4Pages_ok_length {strict : Bool} {r : String} {n : Nat}
    {oracle : Call → Option Json} :
    ∀ (l : List (Json × Json)) (batches : List (List Call)) (out : List Json),
      runPhase4Pages strict r n oracle l = (batches, .ok out) →
      batches.length = l.length := by
  intro l
  induction l with
  | nil =>
    intro batches out h
    simp [runPhase4Pages] at h
    simp [h.1]
  | cons pp pps ih =>
    intro batches out h
    rw [runPhase4Pages] at h
    cases hpb : pageBatchPhase4 strict r n pp.1 pp.2 with
    | error e => rw [hpb] at h; simp at h
    | ok pnbatch =>
      obtain ⟨pn, batch⟩ := pnbatch
      rw [hpb] at h
      dsimp only at h
      cases hvr : validateResponses strict Models.CategoryItemAddons oracle batch with
      | error e => rw [hvr] at h; simp at h
      | ok results =>
        rw [hvr] at h
        dsimp only at h
        cases hrec : runPhase4Pages strict r n oracle pps with
        | mk bs rest =>
          rw [hrec] at h
          simp at h
          cases rest with
          | error e => simp [Except.map] at h
          | ok out' =>
            obtain ⟨hb, -⟩ := h
            rw [← hb]
            simp [ih bs out' hrec]

/-- C7. Stage-4 positional pairing: when the Stage-2 and Stage-3 per-page
category lists have the same length, the page batch has exactly one call per
position, and the i-th call carries the validated i-th Stage-2 category
wrapped as `{"category": ...}` together with the validated i-th Stage-3
category wrapped as `{"category_base": ...}` — pairing is by position, with
no use of `name_raw`. -/
theorem C7_stage4_positional_pairing (strict : Bool) (r : String) (pn : Int)
    (cats bases : List Json) (calls : List Call)
    (hlen : cats.length = bases.length)
    (hok : buildCalls4 strict r pn cats bases = .ok calls) :
    calls.length = cats.length ∧
    ∀ i (hi : i < cats.length) (hb : i < bases.length) (hc : i < calls.length),
      ∃ vc vb,
        validateTop strict (cwiTy strict) (cats.get ⟨i, hi⟩) = some vc ∧
        validateTop strict Models.CategoryBase (bases.get ⟨i, hb⟩) = some vb ∧
        calls.get ⟨i, hc⟩ =
          ⟨r, pn, Json.obj [("category", vc)],
           some (Json.obj [("category_base", vb)])⟩ := by
  have hfa := mapM_except_some hok
  rw [List.forall₂_iff_get] at hfa
  obtain ⟨hl, hget⟩ := hfa
  rw [List.length_zip] at hl
  refine ⟨by omega, ?_⟩
  intro i hi hb hc
  have h2 : i < (cats.zip bases).length := by
    rw [List.length_zip]; omega
  have hstep := hget i h2 hc
  rw [List.get_eq_getElem, List.getElem_zip] at hstep
  dsimp only at hstep
  cases hvc : validateTop strict (cwiTy strict) cats[i] with
  | none => rw [hvc] at hstep; simp [throw, throwThe, MonadExceptOf.throw] at hstep
  | some vc =>
    rw [hvc] at hstep
    dsimp only at hstep
    cases hvb : validateTop strict Models.CategoryBase bases[i] with
    | none => rw [hvb] at hstep; simp [throw, throwThe, MonadExceptOf.throw] at hstep
    | some vb =>
      rw [hvb] at hstep
      simp only [pure, Except.pure, Except.ok.injEq] at hstep
      exact ⟨vc, vb, rfl, rfl, hstep.symm⟩

/-- The C7 and C10 witness Stage-2 category (strict schema: `note` required). -/
def c7cat : Json :=
  .obj [("name_raw", .str "Entrees"), ("note", .str "n")]

/-- The C7 and C10 witness Stage-3 category. -/
def c7base : Json :=
  .obj [("name_raw", .str "Entrees")]

/-- Validated dump of `c7cat` under the strict schema. -/
def c7vdump : Json :=
  .obj [("name_raw", .str "Entrees"), ("category_items", .arr []),
        ("subcategory_items", .arr []), ("note", .str "n")]

/-- Validated dump of `c7base`. -/
def c7bdump : Json :=
  .obj [("name_raw", .str "Entrees"), ("base_options", .arr []),
        ("subcategories_base", .arr [])]

/-- Witness for C7: one Stage-2 category paired with one Stage-3 category
yields exactly one call. -/
theorem C7_witness :
    ([⟨"R", 2, .obj [("category", c7vdump)],
       some (.obj [("category_base", c7bdump)])⟩] : List Call).length =
      ([c7cat] : List Json).length :=
  (C7_stage4_positional_pairing true "R" 2 [c7cat] [c7base] _ rfl rfl).1

/-- C10. Silent zip truncation in Stage 4: a page batch built from category
lists of different lengths has exactly `min` of the two lengths calls;
surplus entries of the longer list are ignored entirely (appending them does
not change the batch); and a successful `run_phase4` page loop over zipped
page lists issues one batch per zipped pair, `min` of the two page counts —
no error or assertion about either mismatch is raised. -/
theorem C10_stage4_silent_zip_truncation :
    (∀ (strict : Bool) (r : String) (pn : Int) (cats bases : List Json)
       (calls : List Call),
       buildCalls4 strict r pn cats bases = .ok calls →
       calls.length = min cats.length bases.length)
    ∧ (∀ (strict : Bool) (r : String) (pn : Int)
        (cats bases extra : List Json),
        cats.length ≤ bases.length →
        buildCalls4 strict r pn cats (bases ++ extra) =
          buildCalls4 strict r pn cats bases)
    ∧ (∀ (strict : Bool) (r : String) (n : Nat) (oracle : Call → Option Json)
        (pages pagesBase : List Json) (batches : List (List Call))
        (out : List Json),
        runPhase4Pages strict r n oracle (pages.zip pagesBase) =
          (batches, .ok out) →
        batches.length = min pages.length pagesBase.length) := by
  refine ⟨?_, ?_, ?_⟩
  · intro strict r pn cats bases calls hok
    have hfa := mapM_except_some hok
    have hl := hfa.length_eq
    rw [List.length_zip] at hl
    exact hl.symm
  · intro strict r pn cats bases extra hle
    unfold buildCalls4
    rw [zip_append_right cats bases extra hle]
  · intro strict r n oracle pages pagesBase batches out h
    have := runPhase4Pages_ok_length (pages.zip pagesBase) batches out h
    rwa [List.length_zip] at this

/-- Witness for C10: two Stage-2 categories against one Stage-3 category
yield a single call — the surplus second category is silently dropped. -/
theorem C10_witness :
    ([⟨"R", 1, .obj [("category", c7vdump)],
       some (.obj [("category_base", c7bdump)])⟩] : List Call).length =
      min ([c7cat, c7cat] : List Json).length ([c7base] : List Json).length :=
  C10_stage4_silent_zip_truncation.1 true "R" 1 [c7cat, c7cat] [c7base] _ rfl

/-- C5. Strict versus lenient schema validation: for any model schema and any
JSON object extended with one field whose name the schema does not declare,
validation in strict mode (`extra="forbid"`, the `src/utils/model.py`
deployment) rejects the object, while validation in lenient mode
(`extra="ignore"`, the `src/backend/utils/model.py` deployment) returns
exactly the result for the object without that field — the unknown field is
dropped. Both modes exist in the code as the two shipped schema files. -/
theorem C5_strict_rejects_lenient_drops (fuel : Nat)
    (fs : List (String × Option Json × Ty)) (kvs : List (String × Json))
    (k : String) (x : Json)
    (hk : fs.all (fun f => f.1 != k) = true) :
    validate true (fuel + 1) (.model fs) (.obj (kvs ++ [(k, x)])) = none
    ∧ validate false (fuel + 1) (.model fs) (.obj (kvs ++ [(k, x)])) =
        validate false (fuel + 1) (.model fs) (.obj kvs) := by
  constructor
  · have hany : (kvs ++ [(k, x)]).any
        (fun kv => fs.all (fun f => f.1 != kv.1)) = true := by
      rw [List.any_eq_true]
      exact ⟨(k, x), by simp, hk⟩
    simp only [validate, Bool.true_and, hany, if_true]
  · simp only [validate, Bool.false_and, if_false]
    have hcongr : fs.mapM (fun (f : String × Option Json × Ty) =>
        match (kvs ++ [(k, x)]).lookup f.1 with
        | some v => (validate false fuel f.2.2 v).map (fun v' => (f.1, v'))
        | none =>
          match f.2.1 with
          | some d => some (f.1, d)
          | none => none) =
        fs.mapM (fun (f : String × Option Json × Ty) =>
        match kvs.lookup f.1 with
        | some v => (validate false fuel f.2.2 v).map (fun v' => (f.1, v'))
        | none =>
          match f.2.1 with
          | some d => some (f.1, d)
          | none => none) := by
      apply mapM_option_congr
      intro f hf
      have hne : f.1 ≠ k := by
        have := List.all_eq_true.mp hk f hf
        simpa using this
      rw [lookup_append_single hne]
    rw [hcongr]

/-- Witness for C5 on the `Categories` stage schema: the object
`{"categories": [], "surprise": 1}` is rejected strictly and accepted
leniently with `surprise` dropped. -/
theorem C5_witness :
    validate true 32 Models.Categories
      (.obj ([("categories", .arr [])] ++ [("surprise", .num 1)])) = none
    ∧ validate false 32 Models.Categories
        (.obj ([("categories", .arr [])] ++ [("surprise", .num 1)])) =
      validate false 32 Models.Categories (.obj [("categories", .arr [])]) :=
  C5_strict_rejects_lenient_drops 31
    [("categories", some (.arr []), .listOf Models.CategoryRef)]
    [("categories", .arr [])] "surprise" (.num 1) rfl

/-- A schema-valid one-page Stage-2 items artifact (also the edit payload)
for the C4 scenario. -/
def c4items : Json :=
  .obj [("restaurant_name", .str "R"),
        ("pages", .arr [.obj [("page_number", .num 1),
          ("categories", .arr [.obj [("name_raw", .str "Entrees")]])]])]

/-- A schema-valid one-page Stage-3 bases artifact for the C4 scenario. -/
def c4bases : Json :=
  .obj [("restaurant_name", .str "R"),
        ("pages", .arr [.obj [("page_number", .num 1),
          ("categories", .arr [.obj [("name_raw", .str "Entrees")]])]])]

/-- C4 starting state: PDF uploaded, Stage-2, Stage-3 and Stage-4 artifacts
all present. -/
def c4store : Store :=
  { pdfPages := some 1,
    reviewedCategories := none,
    phase2Items := some (.obj [("restaurant_name", .str "R"),
      ("pages", .arr [])]),
    phase3Bases := some c4bases,
    phase4Addons := some (.obj [("restaurant_name", .str "R"),
      ("pages", .arr [])]) }

/-- Inference stub for C4: always a valid `CategoryItemAddons` object. -/
def c4oracle : Call → Option Json :=
  fun _ => some (.obj [("name_raw", .str "Entrees")])

/-- Counterexample to C4 as stated: after editing the Stage-2 artifact while
Stage-3 and Stage-4 artifacts exist, the Stage-3 artifact is still present
(nothing was marked stale) and a subsequent Stage-4 request succeeds using
the stale Stage-3 artifact instead of failing with a
required-file-not-found error. -/
theorem C4_counterexample :
    (update_phase2_items c4items c4store).2.phase3Bases = some c4bases
    ∧ (update_phase2_items c4items c4store).2.phase4Addons =
        c4store.phase4Addons
    ∧ exIsErr (extract_addons c4oracle
        (update_phase2_items c4items c4store).2).1 = false :=
  ⟨rfl, rfl, rfl⟩

/-- C4 amended: editing or re-running stage 2 does not discard any
downstream artifact — `update_phase2_items` changes only the Stage-2 items
file; `extract_addons` fails with a required-file-not-found error exactly
when the Stage-2 items file or the Stage-3 bases file is physically absent,
and when all required files exist it simply runs Stage 4 on whatever
(possibly stale) artifacts those files hold. -/
theorem C4_no_invalidation_cascade :
    (∀ (payload : Json) (st : Store),
       (update_phase2_items payload st).2.phase3Bases = st.phase3Bases ∧
       (update_phase2_items payload st).2.phase4Addons = st.phase4Addons ∧
       (update_phase2_items payload st).2.reviewedCategories =
         st.reviewedCategories ∧
       (update_phase2_items payload st).2.pdfPages = st.pdfPages)
    ∧ (∀ (oracle : Call → Option Json) (st : Store), st.phase2Items = none →
        (extract_addons oracle st).1 =
          .error (.requiredFileMissing "category_items_all_pages.json"))
    ∧ (∀ (oracle : Call → Option Json) (st : Store) (items : Json),
        st.phase2Items = some items → st.phase3Bases = none →
        (extract_addons oracle st).1 =
          .error (.requiredFileMissing "category_bases_all_pages.json"))
    ∧ (∀ (oracle : Call → Option Json) (st : Store) (items bases : Json)
        (n : Nat),
        st.phase2Items = some items → st.phase3Bases = some bases →
        st.pdfPages = some n →
        (extract_addons oracle st).1 =
          match jIndex items "restaurant_name" >>= expectStr with
          | .error e => .error e
          | .ok rn => (run_phase4 false rn n oracle items bases).output) := by
  refine ⟨?_, ?_, ?_, ?_⟩
  · intro payload st
    unfold update_phase2_items
    split
    · exact ⟨rfl, rfl, rfl, rfl⟩
    · split
      · exact ⟨rfl, rfl, rfl, rfl⟩
      · exact ⟨rfl, rfl, rfl, rfl⟩
  · intro oracle st h
    simp [extract_addons, checkFile, h, Bind.bind, Except.bind]
  · intro oracle st items h1 h2
    simp [extract_addons, checkFile, h1, h2, Bind.bind, Except.bind]
  · intro oracle st items bases n h1 h2 h3
    cases hx : jIndex items "restaurant_name" with
    | error e =>
      simp [extract_addons, checkFile, checkPdf, h1, h2, h3, hx,
        Bind.bind, Except.bind]
    | ok v =>
      cases hv : expectStr v with
      | error e =>
        simp [extract_addons, checkFile, checkPdf, h1, h2, h3, hx, hv,
          Bind.bind, Except.bind]
      | ok rn =>
        simp only [extract_addons, checkFile, checkPdf, h1, h2, h3,
          Option.isSome_some, if_true, Option.getD_some, Bind.bind,
          Except.bind, hx, hv]
        cases hout : (run_phase4 false rn n oracle items bases).output with
        | error e => simp [hout]
        | ok out => simp [hout]

/-- Witness for the amended C4: the concrete edit leaves the Stage-3
artifact where it was, and a Stage-4 request with the Stage-2 file deleted
fails with the required-file-not-found error. -/
theorem C4_witness :
    (update_phase2_items c4items c4store).2.phase3Bases = c4store.phase3Bases
    ∧ (extract_addons c4oracle { c4store with phase2Items := none }).1 =
        .error (.requiredFileMissing "category_items_all_pages.json") := by
  have h := C4_no_invalidation_cascade
  exact ⟨(h.1 c4items c4store).1,
         h.2.1 c4oracle { c4store with phase2Items := none } rfl⟩

/-- A schema-valid reviewed Stage-1 artifact whose page 2 holds the category
`{"name_raw": "Entrees"}` (no `name` key, as the schemas prescribe). -/
def c8reviewed : Json :=
  .obj [("restaurant_name", .str "R"),
        ("pages", .arr
          [.obj [("page_number", .num 1),
                 ("data", .obj [("categories", .arr [])])],
           .obj [("page_number", .num 2),
                 ("data", .obj [("categories", .arr
                   [.obj [("name_raw", .str "Entrees"),
                          ("subcategories", .arr [])]])])]])]

/-- A schema-valid Stage-2 items artifact with the category on page 2. -/
def c8items : Json :=
  .obj [("restaurant_name", .str "R"),
        ("pages", .arr [.obj [("page_number", .num 2),
          ("categories", .arr [.obj [("name_raw", .str "Entrees")]])]])]

/-- A schema-valid Stage-3 bases artifact with the category on page 2. -/
def c8bases : Json :=
  .obj [("restaurant_name", .str "R"),
        ("pages", .arr [.obj [("page_number", .num 2),
          ("categories", .arr [.obj [("name_raw", .str "Entrees")]])]])]

/-- C8 store: all artifacts present and schema-valid. -/
def c8store : Store :=
  { pdfPages := some 2,
    reviewedCategories := some c8reviewed,
    phase2Items := some c8items,
    phase3Bases := some c8bases,
    phase4Addons := none }

/-- Inference stub for C8 (never reached). -/
def c8oracle : Call → Option Json :=
  fun _ => some (.obj [("name_raw", .str "Entrees")])

/-- C8 evaluated at the failing input: requesting re-extraction of the
category named "Entrees" on page 2 — which exists in every upstream artifact
under its `name_raw` correlation key — makes both re-extraction endpoints
read `cat["name"]` and crash with a KeyError on "name" (an HTTP 500),
instead of matching the category by `name_raw` or answering 404. -/
theorem C8_lookup_reads_name_key :
    (reextract_category_items c8oracle "Entrees" 2 c8store).1 =
      .error (.keyError "name")
    ∧ (reextract_category_addons c8oracle "Entrees" 2 c8store).1 =
      .error (.keyError "name") :=
  ⟨rfl, rfl⟩

/-- C9. Partial re-extraction frame: the re-extraction endpoint never writes
— the store after the request is the store before it, whatever the outcome —
and every successful response carries exactly one unit: the single validated
`CategorywithItems` object obtained from the one inference call made for the
located category, wrapped in the success envelope. Nothing is merged into
any artifact. -/
theorem C9_reextraction_returns_one_unit_and_writes_nothing
    (oracle : Call → Option Json) (categoryName : String)
    (pageNumber : Int) (st : Store) :
    (reextract_category_items oracle categoryName pageNumber st).2 = st
    ∧ ∀ resp,
        (reextract_category_items oracle categoryName pageNumber st).1 =
          .ok resp →
        ∃ rn c j v, oracle ⟨rn, pageNumber, c, none⟩ = some j ∧
          validateTop false Models.CategorywithItemsBackend j = some v ∧
          resp = Json.obj [("success", .bool true),
                           ("message", .str "Re-extracted items for category"),
                           ("category_items", v)] := by
  constructor
  · rfl
  · intro resp h
    replace h : reextract_category_items.go oracle categoryName pageNumber st =
        .ok resp := h
    unfold reextract_category_items.go at h
    obtain ⟨u1, hcf, h⟩ := except_bind_ok h
    obtain ⟨u2, hcp, h⟩ := except_bind_ok h
    obtain ⟨pages, hpages, h⟩ := except_bind_ok h
    obtain ⟨pg, hfind, h⟩ := except_bind_ok h
    cases pg with
    | none => simp [throw, throwThe, MonadExceptOf.throw] at h
    | some targetPage =>
      dsimp only at h
      obtain ⟨dataJ, hdata, h⟩ := except_bind_ok h
      obtain ⟨cats, hcats, h⟩ := except_bind_ok h
      obtain ⟨tc, hfindc, h⟩ := except_bind_ok h
      cases tc with
      | none => simp [throw, throwThe, MonadExceptOf.throw] at h
      | some targetCategory =>
        dsimp only at h
        by_cases hifc : (pyGet (List.range (st.pdfPages.getD 0))
            (pageNumber - 1)).isNone = true
        case pos =>
          rw [if_pos hifc] at h
          simp [throw, throwThe, MonadExceptOf.throw, Bind.bind,
            Except.bind] at h
        case neg =>
        rw [if_neg hifc] at h
        obtain ⟨u3, hpu, h⟩ := except_bind_ok h
        obtain ⟨rn, hrn, h⟩ := except_bind_ok h
        cases horacle : oracle ⟨rn, pageNumber, targetCategory, none⟩ with
        | none =>
          rw [horacle] at h
          simp [throw, throwThe, MonadExceptOf.throw] at h
        | some respJ =>
          rw [horacle] at h
          dsimp only at h
          cases hvalid : validateTop false Models.CategorywithItemsBackend
              respJ with
          | none =>
            rw [hvalid] at h
            simp [throw, throwThe, MonadExceptOf.throw] at h
          | some v =>
            rw [hvalid] at h
            simp only [pure, Except.pure, Except.ok.injEq] at h
            exact ⟨rn, targetCategory, respJ, v, horacle, hvalid, h.symm⟩

/-- C9 witness store: reviewed artifact whose page-1 category carries a
`name` key (the only form the deployed lookup can match), plus the PDF. -/
def c9store : Store :=
  { pdfPages := some 1,
    reviewedCategories := some (.obj
      [("restaurant_name", .str "R"),
       ("pages", .arr [.obj [("page_number", .num 1),
         ("data", .obj [("categories", .arr
           [.obj [("name", .str "Entrees")]])])]])]),
    phase2Items := none,
    phase3Bases := none,
    phase4Addons := none }

/-- Inference stub for the C9 witness: a valid `CategorywithItems` response. -/
def c9oracle : Call → Option Json :=
  fun _ => some (.obj [("name_raw", .str "Entrees")])

/-- The validated dump the C9 witness response carries. -/
def c9unit : Json :=
  .obj [("name_raw", .str "Entrees"), ("category_items", .arr []),
        ("subcategory_items", .arr []),
        ("note", .str "No notes provided")]

/-- Witness for C9: a concrete successful re-extraction returns the single
validated unit and leaves the store untouched. -/
theorem C9_witness :
    (reextract_category_items c9oracle "Entrees" 1 c9store).2 = c9store
    ∧ ∃ rn c j v, c9oracle ⟨rn, 1, c, none⟩ = some j ∧
        validateTop false Models.CategorywithItemsBackend j = some v ∧
        (Json.obj [("success", .bool true),
                   ("message", .str "Re-extracted items for category"),
                   ("category_items", c9unit)]) =
          Json.obj [("success", .bool true),
                    ("message", .str "Re-extracted items for category"),
                    ("category_items", v)] := by
  have h := C9_reextraction_returns_one_unit_and_writes_nothing
    c9oracle "Entrees" 1 c9store
  exact ⟨h.1, h.2 (Json.obj [("success", .bool true),
    ("message", .str "Re-extracted items for category"),
    ("category_items", c9unit)]) rfl⟩
